import Mathlib

/-!
Verification of the plasma-stream server (novifinancial/rust-plasma).

This file gives a shallow embedding of the parts of the `plasma-stream`
crate relevant to the server's wire protocol, the sender/receiver pipelines,
the SYNC dispatcher and the shared coordination sets, and proves (or
refutes) properties of those definitions.

Conventions of the embedding:
* Machine integers become `Nat`; wraparound is written explicitly with
  `% 2 ^ w` where the Rust code can overflow.
* A byte stream is a `List Nat` whose elements are intended to be `< 256`;
  theorems about parsed streams carry that bound as a hypothesis.
* Fallible Rust code returning `Result` becomes `Except`; `Option`-shaped
  reads from a socket become `Option` (an `io::Error`, including EOF inside
  a frame, is a `none`).
* External effects (the Plasma store, socket write failures, spawned-task
  outcomes) are passed in as explicit oracle values, one per call site.
-/

namespace PlasmaStream

-- CONSTANTS (plasma-stream/src/lib.rs)
-- ===========================================================================

def OBJECT_ID_BYTES : Nat := 20

def MAX_META_SIZE : Nat := 65536

def MAX_DATA_SIZE : Nat := 17592186044416

def MAX_OBJECT_ID_LIST_LEN : Nat := 65536

def MAX_NUM_SYNC_PEERS : Nat := 1024

namespace status_codes

def BEGIN : Nat := 0x00

def SUCCESS : Nat := 0x41

def OB_META_TOO_LARGE_ERR : Nat := 0x50

def OB_DATA_TOO_LARGE_ERR : Nat := 0x51

def OB_DATA_ZERO_LENGTH_ERR : Nat := 0x52

def PLASMA_STORE_ERR : Nat := 0x60

def PEER_PLASMA_STORE_ERR : Nat := 0x61

def PEER_REQUEST_PANICKED : Nat := 0x62

def OB_DELETION_SCHEDULED_ERR : Nat := 0x70

def OB_NOT_FOUND_ERR : Nat := 0x71

def OB_ALREADY_RECEIVING_ERR : Nat := 0x80

def OB_ALREADY_IN_STORE_ERR : Nat := 0x81

def PEER_CONNECTION_ERR : Nat := 0x90

def CLIENT_CONNECTION_ERR : Nat := 0x91

end status_codes

/-- An object id is a 20-byte value (`type ObjectId = [u8; 20]`); we model it
as a list of bytes. -/
abbrev ObjectId := List Nat

-- OBJECT HEADER (sender.rs `send_object` / receiver.rs `read_object_header`)
-- ===========================================================================

/-- The data-plane object header built by `send_object` in
`server/sender.rs`: `let header = meta_size | (data_size << 16)` on `u64`
operands, hence reduced modulo `2 ^ 64`. -/
def object_header (meta_size data_size : Nat) : Nat :=
  (meta_size ||| (data_size <<< 16)) % 2 ^ 64

/-- Metadata size decoded by `read_object_header` in `server/receiver.rs`:
`(header as u16) as usize`, i.e. the low 16 bits. -/
def header_meta_size (header : Nat) : Nat :=
  header % 2 ^ 16

/-- Data size decoded by `read_object_header` in `server/receiver.rs`:
`(header >> 16) as usize`, i.e. the high 48 bits of the `u64`. -/
def header_data_size (header : Nat) : Nat :=
  header >>> 16

-- WIRE CODEC (plasma-stream/src/request.rs)
-- ===========================================================================

def SYNC_TYPE_ID : Nat := 1

def COPY_TYPE_ID : Nat := 2

def TAKE_TYPE_ID : Nat := 3

def IPV4_TYPE_ID : Nat := 4

def IPV6_TYPE_ID : Nat := 6

/-- Reads one byte from a stream (`read_u8`); `none` models an io error,
including EOF. -/
def readU8 : List Nat → Option (Nat × List Nat)
  | [] => none
  | b :: rest => some (b, rest)

/-- Reads a little-endian `u16` (`read_u16_le`). -/
def readU16le : List Nat → Option (Nat × List Nat)
  | b0 :: b1 :: rest => some (b0 + 2 ^ 8 * b1, rest)
  | _ => none

/-- Reads a little-endian `u32` (`read_u32_le`). -/
def readU32le : List Nat → Option (Nat × List Nat)
  | b0 :: b1 :: b2 :: b3 :: rest =>
      some (b0 + 2 ^ 8 * b1 + 2 ^ 16 * b2 + 2 ^ 24 * b3, rest)
  | _ => none

/-- Reads a little-endian `u64` (`read_u64_le`). -/
def readU64le : List Nat → Option (Nat × List Nat)
  | b0 :: b1 :: b2 :: b3 :: b4 :: b5 :: b6 :: b7 :: rest =>
      some (b0 + 2 ^ 8 * b1 + 2 ^ 16 * b2 + 2 ^ 24 * b3 + 2 ^ 32 * b4 +
        2 ^ 40 * b5 + 2 ^ 48 * b6 + 2 ^ 56 * b7, rest)
  | _ => none

/-- Reads exactly `k` bytes (`read_exact`); fails if the stream is shorter. -/
def readBytesExact (k : Nat) (s : List Nat) : Option (List Nat × List Nat) :=
  if k ≤ s.length then some (s.take k, s.drop k) else none

/-- Writes one byte (`write_u8` on a `u8` value). -/
def writeU8 (v : Nat) : List Nat := [v % 2 ^ 8]

/-- Writes a little-endian `u16` (`write_u16_le(v as u16)`); the two bytes
agree with Rust's truncating `as u16` cast for every `v`. -/
def writeU16le (v : Nat) : List Nat := [v % 2 ^ 8, v / 2 ^ 8 % 2 ^ 8]

/-- Writes a little-endian `u64` (`write_u64_le`). -/
def writeU64le (v : Nat) : List Nat :=
  [v % 2 ^ 8, v / 2 ^ 8 % 2 ^ 8, v / 2 ^ 16 % 2 ^ 8, v / 2 ^ 24 % 2 ^ 8,
    v / 2 ^ 32 % 2 ^ 8, v / 2 ^ 40 % 2 ^ 8, v / 2 ^ 48 % 2 ^ 8,
    v / 2 ^ 56 % 2 ^ 8]

/-- A socket address: `SocketAddr::V4` carries four ip octets and a port;
`SocketAddr::V6` carries sixteen octets and a port. -/
inductive SockAddr
  | v4 (o0 o1 o2 o3 : Nat) (port : Nat)
  | v6 (octets : List Nat) (port : Nat)
deriving DecidableEq

/-- Reads a peer socket address (`read_socket_addr`): a one-byte family tag,
a `u16` port, then the address bytes. The IPv4 branch mirrors
`read_ipv4_address`, which reads a `u32` and splits it into octets with
`a as u8, (a >> 8) as u8, (a >> 16) as u8, (a >> 24) as u8`. The IPv6
branch is `unimplemented!()` in the source (a panic — it never returns a
value) and any other tag is `InvalidPeerAddressType`; both are modelled as
parse failure. -/
def read_socket_addr (s : List Nat) : Option (SockAddr × List Nat) :=
  (readU8 s).bind fun (addr_type, s1) =>
  (readU16le s1).bind fun (port, s2) =>
  if addr_type = IPV4_TYPE_ID then
    (readU32le s2).bind fun (a, s3) =>
    some (SockAddr.v4 (a % 2 ^ 8) (a / 2 ^ 8 % 2 ^ 8)
      (a / 2 ^ 16 % 2 ^ 8) (a / 2 ^ 24 % 2 ^ 8) port, s3)
  else
    none

/-- Writes a peer socket address (`write_peer_addr`): family tag, `u16`
port, then the raw octets. -/
def write_peer_addr : SockAddr → List Nat
  | SockAddr.v4 o0 o1 o2 o3 port =>
      writeU8 IPV4_TYPE_ID ++ writeU16le port ++ [o0, o1, o2, o3]
  | SockAddr.v6 octets port =>
      writeU8 IPV6_TYPE_ID ++ writeU16le port ++ octets

/-- Reads `n` consecutive 20-byte object ids. The source
(`read_object_id_list`) reads all `20 * n` bytes with one `read_exact` and
then chunks them into 20-byte arrays; consuming the ids one by one is the
same stream transformation. -/
def readObjectIds : Nat → List Nat → Option (List ObjectId × List Nat)
  | 0, s => some ([], s)
  | Nat.succ n, s =>
    (readBytesExact OBJECT_ID_BYTES s).bind fun (oid, s1) =>
    (readObjectIds n s1).bind fun (ids, s2) =>
    some (oid :: ids, s2)

/-- Reads an object-id list (`read_object_id_list`): a `u16` count, then
that many 20-byte ids. -/
def read_object_id_list (s : List Nat) : Option (List ObjectId × List Nat) :=
  (readU16le s).bind fun (num_ids, s1) =>
  readObjectIds num_ids s1

/-- Writes an object-id list (`write_object_id_list`): the length as `u16`,
then each id's 20 bytes. -/
def write_object_id_list (object_ids : List ObjectId) : List Nat :=
  writeU16le object_ids.length ++ object_ids.flatten

/-- A SYNC peer request (`enum PeerRequest`): COPY or TAKE, each with a
`from` address and an object-id list. -/
inductive PeerRequest
  | copy (from_ : SockAddr) (objects : List ObjectId)
  | take (from_ : SockAddr) (objects : List ObjectId)
deriving DecidableEq

/-- Reads a SYNC peer request (`PeerRequest::read_from`). -/
def PeerRequest.read_from (s : List Nat) : Option (PeerRequest × List Nat) :=
  (readU8 s).bind fun (request_type, s1) =>
  if request_type = COPY_TYPE_ID then
    (read_socket_addr s1).bind fun (from_, s2) =>
    (read_object_id_list s2).bind fun (objects, s3) =>
    some (PeerRequest.copy from_ objects, s3)
  else if request_type = TAKE_TYPE_ID then
    (read_socket_addr s1).bind fun (from_, s2) =>
    (read_object_id_list s2).bind fun (objects, s3) =>
    some (PeerRequest.take from_ objects, s3)
  else
    none

/-- Writes a SYNC peer request (`PeerRequest::write_into`). -/
def PeerRequest.write_into : PeerRequest → List Nat
  | PeerRequest.copy from_ objects =>
      writeU8 COPY_TYPE_ID ++ write_peer_addr from_ ++
        write_object_id_list objects
  | PeerRequest.take from_ objects =>
      writeU8 TAKE_TYPE_ID ++ write_peer_addr from_ ++
        write_object_id_list objects

/-- Reads `n` consecutive peer requests (the SYNC loop in
`Request::read_from`). -/
def readPeerRequests : Nat → List Nat → Option (List PeerRequest × List Nat)
  | 0, s => some ([], s)
  | Nat.succ n, s =>
    (PeerRequest.read_from s).bind fun (pr, s1) =>
    (readPeerRequests n s1).bind fun (prs, s2) =>
    some (pr :: prs, s2)

/-- A request (`enum Request`): SYNC, COPY or TAKE. -/
inductive Request
  | sync (peer_requests : List PeerRequest)
  | copy (object_ids : List ObjectId)
  | take (object_ids : List ObjectId)
deriving DecidableEq

/-- Reads a request (`Request::read_from`). The source distinguishes a clean
EOF before the type byte (`Ok(None)`) from a malformed request (`Err`); both
are collapsed to `none` here, so `some` is exactly a successful parse. -/
def Request.read_from (s : List Nat) : Option (Request × List Nat) :=
  (readU8 s).bind fun (request_type, s1) =>
  if request_type = SYNC_TYPE_ID then
    (readU16le s1).bind fun (num_peer_requests, s2) =>
    (readPeerRequests num_peer_requests s2).bind fun (peer_requests, s3) =>
    some (Request.sync peer_requests, s3)
  else if request_type = COPY_TYPE_ID then
    (read_object_id_list s1).bind fun (object_ids, s2) =>
    some (Request.copy object_ids, s2)
  else if request_type = TAKE_TYPE_ID then
    (read_object_id_list s1).bind fun (object_ids, s2) =>
    some (Request.take object_ids, s2)
  else
    none

/-- Writes a request (`Request::write_into`). -/
def Request.write_into : Request → List Nat
  | Request.sync peer_requests =>
      writeU8 SYNC_TYPE_ID ++ writeU16le peer_requests.length ++
        (peer_requests.map PeerRequest.write_into).flatten
  | Request.copy object_ids =>
      writeU8 COPY_TYPE_ID ++ write_object_id_list object_ids
  | Request.take object_ids =>
      writeU8 TAKE_TYPE_ID ++ write_object_id_list object_ids

-- REQUEST VALIDATION (plasma-stream/src/request.rs `validate`)
-- ===========================================================================

/-- Incoming object ids of a peer request (`PeerRequest::incoming_objects`). -/
def PeerRequest.incoming_objects : PeerRequest → List ObjectId
  | PeerRequest.copy _ objects => objects
  | PeerRequest.take _ objects => objects

/-- Whether this peer request's `from` address equals `address`
(`PeerRequest::contains_peer`). -/
def PeerRequest.contains_peer (pr : PeerRequest) (address : SockAddr) : Bool :=
  match pr with
  | PeerRequest.copy from_ _ => decide (from_ = address)
  | PeerRequest.take from_ _ => decide (from_ = address)

/-- Request-parsing and validation errors (`enum RequestError`). -/
inductive RequestError
  | invalidRequestType (t : Nat)
  | invalidPeerRequestType (t : Nat)
  | invalidPeerAddressType (t : Nat)
  | objectIdListTooShort
  | objectIdListTooLong (n : Nat)
  | duplicateObjectIds
  | peerRequestListTooShort
  | peerRequestListTooLong (n : Nat)
deriving DecidableEq

/-- Validation of one peer request (`PeerRequest::validate`): the object-id
list must be neither empty nor longer than `MAX_OBJECT_ID_LIST_LEN`. -/
def PeerRequest.validate (pr : PeerRequest) : Except RequestError Unit :=
  match pr with
  | PeerRequest.copy _ objects | PeerRequest.take _ objects =>
    if objects.isEmpty then Except.error RequestError.objectIdListTooShort
    else if objects.length > MAX_OBJECT_ID_LIST_LEN then
      Except.error (RequestError.objectIdListTooLong objects.length)
    else Except.ok ()

/-- The duplicate-detection loop over `unique_objects : HashSet` in
`Request::validate`: inserts ids one by one and reports the first id whose
insert returns false (already present). The hash set is modelled as the
list of ids inserted so far. -/
def insertUnique (seen : List ObjectId) : List ObjectId → Option (List ObjectId)
  | [] => some seen
  | oid :: rest =>
    if oid ∈ seen then none else insertUnique (oid :: seen) rest

/-- The SYNC arm of `Request::validate`: validates each peer request, then
feeds its incoming ids through the shared duplicate-detection set. -/
def validateSyncLoop (seen : List ObjectId) :
    List PeerRequest → Except RequestError Unit
  | [] => Except.ok ()
  | pr :: rest =>
    match pr.validate with
    | Except.error e => Except.error e
    | Except.ok _ =>
      match insertUnique seen pr.incoming_objects with
      | none => Except.error RequestError.duplicateObjectIds
      | some seen1 => validateSyncLoop seen1 rest

/-- Request validation (`Request::validate`). -/
def Request.validate : Request → Except RequestError Unit
  | Request.sync peer_requests =>
    if peer_requests.isEmpty then
      Except.error RequestError.peerRequestListTooShort
    else if peer_requests.length > MAX_NUM_SYNC_PEERS then
      Except.error (RequestError.peerRequestListTooLong peer_requests.length)
    else validateSyncLoop [] peer_requests
  | Request.take object_ids | Request.copy object_ids =>
    if object_ids.isEmpty then Except.error RequestError.objectIdListTooShort
    else if object_ids.length > MAX_OBJECT_ID_LIST_LEN then
      Except.error (RequestError.objectIdListTooLong object_ids.length)
    else
      match insertUnique [] object_ids with
      | none => Except.error RequestError.duplicateObjectIds
      | some _ => Except.ok ()

-- OBJECT RECEIVER (plasma-stream/src/server/receiver.rs)
-- ===========================================================================

/-- An object buffer: id plus metadata and data byte buffers (the parts of
`plasma_store::ObjectBuffer` the transfer engine reads). -/
structure ObjectBuffer where
  id : ObjectId
  meta : List Nat
  data : List Nat
deriving DecidableEq

/-- Errors of the receive pipeline (`enum ObjectReceiveError`). Payloads
that carry a `PlasmaError` or `std::io::Error` value are dropped; all
payloads that influence `response_code` are kept. -/
inductive ObjectReceiveError
  | alreadyReceiving (peer : SockAddr) (ids : List ObjectId)
  | alreadyInStore (peer : SockAddr) (ids : List ObjectId)
  | objectMetaTooLarge (peer : SockAddr) (oid : ObjectId) (size : Nat)
  | objectDataTooLarge (peer : SockAddr) (oid : ObjectId) (size : Nat)
  | zeroLengthObjectData (peer : SockAddr) (oid : ObjectId)
  | peerError (peer : SockAddr) (status_code : Nat)
  | storeError (peer : SockAddr)
  | connectionError (peer : Option SockAddr)
deriving DecidableEq

/-- `ObjectReceiveError::response_code` (errors.rs): every receive error maps
to a one-byte status code; a forwarded peer code is passed through verbatim
except that `PLASMA_STORE_ERR` becomes `PEER_PLASMA_STORE_ERR`. -/
def ObjectReceiveError.response_code : ObjectReceiveError → Nat
  | ObjectReceiveError.alreadyReceiving _ _ =>
      status_codes.OB_ALREADY_RECEIVING_ERR
  | ObjectReceiveError.alreadyInStore _ _ =>
      status_codes.OB_ALREADY_IN_STORE_ERR
  | ObjectReceiveError.objectMetaTooLarge _ _ _ =>
      status_codes.OB_META_TOO_LARGE_ERR
  | ObjectReceiveError.objectDataTooLarge _ _ _ =>
      status_codes.OB_DATA_TOO_LARGE_ERR
  | ObjectReceiveError.zeroLengthObjectData _ _ =>
      status_codes.OB_DATA_ZERO_LENGTH_ERR
  | ObjectReceiveError.peerError _ status_code =>
      if status_code = status_codes.PLASMA_STORE_ERR then
        status_codes.PEER_PLASMA_STORE_ERR
      else status_code
  | ObjectReceiveError.storeError _ => status_codes.PLASMA_STORE_ERR
  | ObjectReceiveError.connectionError _ => status_codes.PEER_CONNECTION_ERR

/-- Store-call oracles for one receiver run: whether the `create` and `seal`
calls made for the object at a given index succeed. -/
structure RecvEnv where
  create_ok : Nat → Bool
  seal_ok : Nat → Bool

/-- `receive_object`: reads the object header, checks the decoded sizes,
reads `meta_size` metadata bytes, creates the store object, reads
`data_size` data bytes into it, and seals it. Returns the received object
buffer and the remaining stream. -/
def receive_object (oid : ObjectId) (from_peer : SockAddr)
    (create_ok seal_ok : Bool) (s : List Nat) :
    Except ObjectReceiveError (ObjectBuffer × List Nat) :=
  match readU64le s with
  | none => Except.error (ObjectReceiveError.connectionError (some from_peer))
  | some (header, s1) =>
    let meta_size := header_meta_size header
    let data_size := header_data_size header
    if data_size = 0 then
      Except.error (ObjectReceiveError.zeroLengthObjectData from_peer oid)
    else if data_size > MAX_DATA_SIZE then
      Except.error
        (ObjectReceiveError.objectDataTooLarge from_peer oid data_size)
    else if meta_size > MAX_META_SIZE then
      Except.error
        (ObjectReceiveError.objectMetaTooLarge from_peer oid meta_size)
    else
      match readBytesExact meta_size s1 with
      | none =>
          Except.error (ObjectReceiveError.connectionError (some from_peer))
      | some (meta_buf, s2) =>
        if create_ok then
          match readBytesExact data_size s2 with
          | none =>
              Except.error
                (ObjectReceiveError.connectionError (some from_peer))
          | some (data_buf, s3) =>
            if seal_ok then Except.ok (⟨oid, meta_buf, data_buf⟩, s3)
            else Except.error (ObjectReceiveError.storeError from_peer)
        else Except.error (ObjectReceiveError.storeError from_peer)

/-- Classifies a `receive_object` result as an `ObjectMetaTooLarge` error. -/
def is_meta_too_large :
    Except ObjectReceiveError (ObjectBuffer × List Nat) → Bool
  | Except.error (ObjectReceiveError.objectMetaTooLarge _ _ _) => true
  | _ => false

/-- The per-object loop of `ObjectReceiver::run`, carrying the `enumerate`
index `i`. On a failure at index `i` the source calls
`delete_many(&plasma_object_ids[..(i + 1)])`, swallowing any deletion
error; the list of `delete_many` invocations made is returned alongside the
result. -/
def receiveLoop (all_ids : List ObjectId) (peer_address : SockAddr)
    (env : RecvEnv) :
    Nat → List ObjectId → List Nat →
      Except ObjectReceiveError Unit × List (List ObjectId)
  | _, [], _ => (Except.ok (), [])
  | i, oid :: rest, s =>
    match receive_object oid peer_address (env.create_ok i) (env.seal_ok i)
        s with
    | Except.ok (_, s1) =>
        receiveLoop all_ids peer_address env (i + 1) rest s1
    | Except.error e => (Except.error e, [all_ids.take (i + 1)])

/-- `ObjectReceiver::run`: reads the leading status byte; if it is not
`BEGIN` the run fails with `PeerError(status)`, otherwise the objects are
received in order. `peer_address` models the successful
`socket.peer_addr()` call at the top of `run`. The second component is the
list of rollback `delete_many` invocations. -/
def ObjectReceiver.run (object_ids : List ObjectId)
    (peer_address : SockAddr) (env : RecvEnv) (s : List Nat) :
    Except ObjectReceiveError Unit × List (List ObjectId) :=
  match readU8 s with
  | none =>
      (Except.error (ObjectReceiveError.connectionError (some peer_address)),
        [])
  | some (status, s1) =>
    if status ≠ status_codes.BEGIN then
      (Except.error (ObjectReceiveError.peerError peer_address status), [])
    else
      receiveLoop object_ids peer_address env 0 object_ids s1

-- SYNC DISPATCHER (plasma-stream/src/server/dispatcher.rs, errors.rs)
-- ===========================================================================

/-- Errors of the SYNC pipeline (`enum SyncError`). Payloads carrying
`std::io::Error` or `JoinError` values are dropped; the receiver error of
`ReceiverError` is kept because `response_code` forwards to it. -/
inductive SyncError
  | peerConnectionFailed (peer : SockAddr)
  | peerRequestNotSent (peer : SockAddr)
  | receiverError (err : ObjectReceiveError)
  | peerRequestPanicked
  | clientConnectionError
  | peerAddressIsSelf
deriving DecidableEq

/-- `SyncError::response_code` (errors.rs). -/
def SyncError.response_code : SyncError → Nat
  | SyncError.peerConnectionFailed _ => status_codes.PEER_CONNECTION_ERR
  | SyncError.peerRequestNotSent _ => status_codes.PEER_CONNECTION_ERR
  | SyncError.receiverError err => err.response_code
  | SyncError.peerRequestPanicked => status_codes.PEER_REQUEST_PANICKED
  | SyncError.clientConnectionError => status_codes.CLIENT_CONNECTION_ERR
  | SyncError.peerAddressIsSelf => status_codes.PEER_CONNECTION_ERR

/-- Outcome of one spawned peer task as observed at the dispatcher's
`handle.await`: the task returned `Ok`, returned `Err(e)`, or panicked
(`JoinError`). -/
inductive TaskOutcome
  | ok
  | fail (e : SyncError)
  | panicked

/-- External effects of one `Dispatcher::run` call: the result of
`client_socket.local_addr()` (`none` models its failure), the outcome of
the spawned task for each peer-request index, and whether the final
`write_all` of the response buffer succeeds. -/
structure DispatchEnv where
  local_addr : Option SockAddr
  outcomes : Nat → TaskOutcome
  client_write_ok : Bool

/-- `Dispatcher::run`: checks that no peer request addresses the client
socket's local address, spawns one task per request, awaits them, builds
the response buffer (initialised to `SUCCESS`, with each index overwritten
by the task error's response code or by `PEER_REQUEST_PANICKED`), and
writes the buffer to the client socket. The first component is the list of
bytes written to the client socket (a failing `write_all` is modelled as
writing nothing). -/
def Dispatcher.run (requests : List PeerRequest) (env : DispatchEnv) :
    List Nat × Except SyncError Unit :=
  match env.local_addr with
  | none => ([], Except.error SyncError.clientConnectionError)
  | some local_address =>
    if requests.any (fun request => request.contains_peer local_address) then
      ([], Except.error SyncError.peerAddressIsSelf)
    else
      let response := (List.range requests.length).map fun i =>
        match env.outcomes i with
        | TaskOutcome.ok => status_codes.SUCCESS
        | TaskOutcome.fail err => err.response_code
        | TaskOutcome.panicked => status_codes.PEER_REQUEST_PANICKED
      if env.client_write_ok then (response, Except.ok ())
      else ([], Except.error SyncError.clientConnectionError)

-- OBJECT SENDER (plasma-stream/src/server/sender.rs, errors.rs)
-- ===========================================================================

/-- Errors of the send pipeline (`enum ObjectSendError`). Payloads carrying
a `PlasmaError` or `std::io::Error` value are dropped. -/
inductive ObjectSendError
  | objectDeletionScheduled (peer : SockAddr) (ids : List ObjectId)
  | objectMetaTooLarge (peer : SockAddr) (oid : ObjectId) (size : Nat)
  | objectDataTooLarge (peer : SockAddr) (oid : ObjectId) (size : Nat)
  | storeError (peer : SockAddr)
  | objectsNotFound (peer : SockAddr) (ids : List ObjectId)
  | connectionError (peer : Option SockAddr)
deriving DecidableEq

/-- `ObjectSendError::response_code`: errors that can only happen before any
bytes are sent carry a code; `ConnectionError` carries none. -/
def ObjectSendError.response_code : ObjectSendError → Option Nat
  | ObjectSendError.objectDeletionScheduled _ _ =>
      some status_codes.OB_DELETION_SCHEDULED_ERR
  | ObjectSendError.objectMetaTooLarge _ _ _ =>
      some status_codes.OB_META_TOO_LARGE_ERR
  | ObjectSendError.objectDataTooLarge _ _ _ =>
      some status_codes.OB_DATA_TOO_LARGE_ERR
  | ObjectSendError.objectsNotFound _ _ =>
      some status_codes.OB_NOT_FOUND_ERR
  | ObjectSendError.storeError _ => some status_codes.PLASMA_STORE_ERR
  | ObjectSendError.connectionError _ => none

/-- External effects of one `ObjectSender::run` call: the sender's fields,
the contents of the `deleting` set at `check_deleting` time, the `get_many`
result (one optional object per requested id), and the socket oracle: the
index of the first write call that fails (counting every `write_*` call;
`none` means all writes succeed). -/
structure SendEnv where
  peer_addr : SockAddr
  object_ids : List ObjectId
  delete_after_send : Bool
  deleting : List ObjectId
  get_many : Except Unit (List (Option ObjectBuffer))
  fail_from : Option Nat

/-- One socket write call: `st` is (number of write calls made so far,
bytes written so far). A failing write emits nothing and returns `none`. -/
def write_op (fail_from : Option Nat) (st : Nat × List Nat)
    (bytes : List Nat) : Option (Nat × List Nat) :=
  match fail_from with
  | some f => if f ≤ st.1 then none else some (st.1 + 1, st.2 ++ bytes)
  | none => some (st.1 + 1, st.2 ++ bytes)

/-- `check_deleting`: under the `deleting` lock, collects the requested ids
already scheduled for deletion and fails with `ObjectDeletionScheduled` if
there are any; otherwise, when `delete_after_send` is set, inserts all ids
into the set within the same critical section. Returns the result and the
updated `deleting` set (the set is modelled as the list of its members). -/
def ObjectSender.check_deleting (peer_addr : SockAddr)
    (object_ids : List ObjectId) (delete_after_send : Bool)
    (deleting : List ObjectId) :
    Except ObjectSendError Unit × List ObjectId :=
  let in_deleting := object_ids.filter (fun oid => decide (oid ∈ deleting))
  if ¬in_deleting.isEmpty then
    (Except.error
      (ObjectSendError.objectDeletionScheduled peer_addr in_deleting),
      deleting)
  else if delete_after_send then (Except.ok (), deleting ++ object_ids)
  else (Except.ok (), deleting)

/-- `impl Drop for ObjectSender`: when `delete_after_send` is set, removes
all of the sender's ids from the `deleting` set, unconditionally. -/
def ObjectSender.drop (delete_after_send : Bool)
    (object_ids deleting : List ObjectId) : List ObjectId :=
  if delete_after_send then
    deleting.filter (fun oid => !decide (oid ∈ object_ids))
  else deleting

/-- `get_objects`: runs `get_many`, fails with `StoreError` on a store
error, with `ObjectsNotFound` listing the ids whose entry came back `None`
(the source indexes `self.object_ids[i]`; `get_many` returns one entry per
requested id, modelled by zipping), and otherwise returns the objects. -/
def ObjectSender.get_objects (peer_addr : SockAddr)
    (object_ids : List ObjectId)
    (get_many : Except Unit (List (Option ObjectBuffer))) :
    Except ObjectSendError (List ObjectBuffer) :=
  match get_many with
  | Except.error _ => Except.error (ObjectSendError.storeError peer_addr)
  | Except.ok objects =>
    let missing := (object_ids.zip objects).filterMap
      (fun p => match p.2 with | none => some p.1 | some _ => none)
    if ¬missing.isEmpty then
      Except.error (ObjectSendError.objectsNotFound peer_addr missing)
    else Except.ok (objects.filterMap id)

/-- `check_object_sizes`: fails on the first object whose metadata or data
length exceeds the limits; for each object the metadata check precedes the
data check. -/
def ObjectSender.check_object_sizes (peer_addr : SockAddr) :
    List ObjectBuffer → Except ObjectSendError Unit
  | [] => Except.ok ()
  | ob :: rest =>
    if ob.meta.length > MAX_META_SIZE then
      Except.error
        (ObjectSendError.objectMetaTooLarge peer_addr ob.id ob.meta.length)
    else if ob.data.length > MAX_DATA_SIZE then
      Except.error
        (ObjectSendError.objectDataTooLarge peer_addr ob.id ob.data.length)
    else ObjectSender.check_object_sizes peer_addr rest

/-- `send_object`: writes the header `u64` (`meta_size | (data_size << 16)`),
then the metadata bytes, then the data bytes — three write calls. Returns
the updated write state and whether all three writes succeeded. -/
def send_object (fail_from : Option Nat) (ob : ObjectBuffer)
    (st : Nat × List Nat) : (Nat × List Nat) × Bool :=
  match write_op fail_from st
      (writeU64le (object_header ob.meta.length ob.data.length)) with
  | none => (st, false)
  | some st1 =>
    match write_op fail_from st1 ob.meta with
    | none => (st1, false)
    | some st2 =>
      match write_op fail_from st2 ob.data with
      | none => (st2, false)
      | some st3 => (st3, true)

/-- The per-object loop of `send_objects`; aborts at the first failing
write. -/
def sendLoop (fail_from : Option Nat) :
    List ObjectBuffer → (Nat × List Nat) → (Nat × List Nat) × Bool
  | [], st => (st, true)
  | ob :: rest, st =>
    match send_object fail_from ob st with
    | (st1, true) => sendLoop fail_from rest st1
    | (st1, false) => (st1, false)

/-- `send_objects`: deletion guard, retrieval, size guard, then the `BEGIN`
byte and the objects in order. The optional trailing `delete_many` makes no
socket writes and has no effect on the returned state. Returns the final
write state (count of write calls, byte trace) and the result. -/
def ObjectSender.send_objects (env : SendEnv) :
    (Nat × List Nat) × Except ObjectSendError Unit :=
  match (ObjectSender.check_deleting env.peer_addr env.object_ids
      env.delete_after_send env.deleting).1 with
  | Except.error e => ((0, []), Except.error e)
  | Except.ok _ =>
    match ObjectSender.get_objects env.peer_addr env.object_ids
        env.get_many with
    | Except.error e => ((0, []), Except.error e)
    | Except.ok objects =>
      match ObjectSender.check_object_sizes env.peer_addr objects with
      | Except.error e => ((0, []), Except.error e)
      | Except.ok _ =>
        match write_op env.fail_from (0, []) [status_codes.BEGIN] with
        | none =>
            ((0, []),
              Except.error
                (ObjectSendError.connectionError (some env.peer_addr)))
        | some st =>
          match sendLoop env.fail_from objects st with
          | (st1, true) => (st1, Except.ok ())
          | (st1, false) =>
              (st1,
                Except.error
                  (ObjectSendError.connectionError (some env.peer_addr)))

/-- `ObjectSender::run`: runs `send_objects`; when the resulting error
carries a response code, attempts to write that single byte in lieu of
`BEGIN`, ignoring a failure of that very write (`let _result = ...`). The
first component is the full byte trace written to the socket. -/
def ObjectSender.run (env : SendEnv) :
    List Nat × Except ObjectSendError Unit :=
  match ObjectSender.send_objects env with
  | (st, Except.ok _) => (st.2, Except.ok ())
  | (st, Except.error err) =>
    match err.response_code with
    | some code =>
      match write_op env.fail_from st [code] with
      | some st1 => (st1.2, Except.error err)
      | none => (st.2, Except.error err)
    | none => (st.2, Except.error err)

-- OBJECT RECEIVER PREPARE AND DROP (plasma-stream/src/server/receiver.rs)
-- ===========================================================================

/-- `add_to_receiving`: under the `receiving` lock, collects the requested
ids already being received and fails with `AlreadyReceiving` if there are
any; otherwise inserts all ids. Returns the result and the updated
`receiving` set. -/
def ObjectReceiver.add_to_receiving (peer_addr : SockAddr)
    (object_ids receiving : List ObjectId) :
    Except ObjectReceiveError Unit × List ObjectId :=
  let duplicates := object_ids.filter (fun oid => decide (oid ∈ receiving))
  if ¬duplicates.isEmpty then
    (Except.error
      (ObjectReceiveError.alreadyReceiving peer_addr duplicates),
      receiving)
  else (Except.ok (), receiving ++ object_ids)

/-- `ObjectReceiver::prepare`: marks the ids as being received, then checks
`contains_many` on the local store (its result is passed as an oracle:
`Except.error` models a store failure, otherwise the list of ids already
present). Returns the result and the updated `receiving` set. -/
def ObjectReceiver.prepare (peer_addr : SockAddr)
    (object_ids receiving : List ObjectId)
    (contains_many : Except Unit (List ObjectId)) :
    Except ObjectReceiveError Unit × List ObjectId :=
  match ObjectReceiver.add_to_receiving peer_addr object_ids receiving with
  | (Except.error e, receiving1) => (Except.error e, receiving1)
  | (Except.ok _, receiving1) =>
    match contains_many with
    | Except.error _ =>
        (Except.error (ObjectReceiveError.storeError peer_addr), receiving1)
    | Except.ok in_store =>
      if ¬in_store.isEmpty then
        (Except.error
          (ObjectReceiveError.alreadyInStore peer_addr in_store),
          receiving1)
      else (Except.ok (), receiving1)

/-- `impl Drop for ObjectReceiver`: removes all of the receiver's ids from
the `receiving` set, unconditionally. -/
def ObjectReceiver.drop (object_ids receiving : List ObjectId) :
    List ObjectId :=
  receiving.filter (fun oid => !decide (oid ∈ object_ids))

-- THEOREMS
-- ===========================================================================

lemma object_header_eq_add (meta_size data_size : Nat)
    (hm : meta_size < 2 ^ 16) (hd : data_size ≤ MAX_DATA_SIZE) :
    object_header meta_size data_size = meta_size + data_size * 2 ^ 16 := by
  have hor : meta_size ||| (data_size <<< 16) = meta_size + data_size * 2 ^ 16 := by
    have h := Nat.mul_add_lt_is_or (i := 16) hm data_size
    rw [Nat.shiftLeft_eq, Nat.lor_comm, Nat.mul_comm data_size (2 ^ 16), ← h]
    ring
  have hlt : meta_size + data_size * 2 ^ 16 < 2 ^ 64 := by
    have : data_size * 2 ^ 16 ≤ MAX_DATA_SIZE * 2 ^ 16 :=
      Nat.mul_le_mul_right _ hd
    simp only [MAX_DATA_SIZE] at this
    omega
  rw [object_header, hor, Nat.mod_eq_of_lt hlt]

/-- C1 (counterexample). The claim asserts the header round-trip for every
object the sender's size guard accepts, and the guard (`meta_size as u64 >
MAX_META_SIZE` in `check_object_sizes`) accepts `meta_size = 65536 =
MAX_META_SIZE`. At `meta_size = 65536`, `data_size = 1` the round-trip
fails: the decoded metadata size is `0`, not `65536` (and in general both
decoded sizes are corrupted at this boundary). -/
theorem object_header_boundary_counterexample :
    65536 ≤ MAX_META_SIZE ∧ 0 < 1 ∧ 1 ≤ MAX_DATA_SIZE ∧
    header_meta_size (object_header 65536 1) ≠ 65536 := by
  refine ⟨le_refl _, Nat.one_pos, by decide, ?_⟩
  decide

/-- C1 (amended). For every `meta_size` strictly below `MAX_META_SIZE =
65536` and every `data_size` with `0 < data_size ≤ MAX_DATA_SIZE = 2 ^ 44`,
encoding the object header as `meta_size | (data_size << 16)` (as the sender
does) and then decoding the low 16 bits and the high 48 bits (as the
receiver does) recovers `meta_size` and `data_size`. -/
theorem object_header_roundtrip (meta_size data_size : Nat)
    (hm : meta_size < MAX_META_SIZE) (_hd0 : 0 < data_size)
    (hd : data_size ≤ MAX_DATA_SIZE) :
    header_meta_size (object_header meta_size data_size) = meta_size ∧
    header_data_size (object_header meta_size data_size) = data_size := by
  have hm' : meta_size < 2 ^ 16 := hm
  rw [object_header_eq_add meta_size data_size hm' hd]
  constructor
  · rw [header_meta_size, Nat.add_mul_mod_self_right, Nat.mod_eq_of_lt hm']
  · rw [header_data_size, Nat.shiftRight_eq_div_pow,
      Nat.add_mul_div_right _ _ (Nat.pos_pow_of_pos 16 (by norm_num)),
      Nat.div_eq_of_lt hm']
    exact Nat.zero_add _

/-- C1 (witness). The round-trip theorem applied at `meta_size = 4`,
`data_size = 16`. -/
theorem object_header_roundtrip_witness :
    (4 < MAX_META_SIZE ∧ 0 < 16 ∧ 16 ≤ MAX_DATA_SIZE) ∧
    header_meta_size (object_header 4 16) = 4 ∧
    header_data_size (object_header 4 16) = 16 :=
  ⟨⟨by decide, by decide, by decide⟩,
    object_header_roundtrip 4 16 (by decide) (by decide) (by decide)⟩

lemma bytes_lt_of_append {a r s : List Nat} (h : a ++ r = s)
    (hb : ∀ b ∈ s, b < 256) : ∀ b ∈ r, b < 256 := by
  intro b hbr
  exact hb b (by rw [← h]; exact List.mem_append_right a hbr)

lemma readU8_spec {s r : List Nat} {v : Nat}
    (h : readU8 s = some (v, r)) (hb : ∀ b ∈ s, b < 256) :
    writeU8 v ++ r = s ∧ v < 2 ^ 8 := by
  match s with
  | [] => simp [readU8] at h
  | b :: rest =>
    simp only [readU8, Option.some.injEq, Prod.mk.injEq] at h
    obtain ⟨rfl, rfl⟩ := h
    have hb0 : b < 256 := hb b (by simp)
    refine ⟨?_, hb0⟩
    simp only [writeU8, List.cons_append, List.nil_append, List.cons.injEq]
    exact ⟨by omega, trivial⟩

lemma readU16le_spec {s r : List Nat} {v : Nat}
    (h : readU16le s = some (v, r)) (hb : ∀ b ∈ s, b < 256) :
    writeU16le v ++ r = s ∧ v < 2 ^ 16 := by
  match s with
  | [] => simp [readU16le] at h
  | [b0] => simp [readU16le] at h
  | b0 :: b1 :: rest =>
    simp only [readU16le, Option.some.injEq, Prod.mk.injEq] at h
    obtain ⟨rfl, rfl⟩ := h
    have hb0 : b0 < 256 := hb b0 (by simp)
    have hb1 : b1 < 256 := hb b1 (by simp)
    refine ⟨?_, by omega⟩
    simp only [writeU16le, List.cons_append, List.nil_append, List.cons.injEq]
    exact ⟨by omega, by omega, trivial⟩

lemma readU32le_spec {s r : List Nat} {v : Nat}
    (h : readU32le s = some (v, r)) (hb : ∀ b ∈ s, b < 256) :
    [v % 2 ^ 8, v / 2 ^ 8 % 2 ^ 8, v / 2 ^ 16 % 2 ^ 8, v / 2 ^ 24 % 2 ^ 8]
      ++ r = s := by
  match s with
  | [] => simp [readU32le] at h
  | [_] => simp [readU32le] at h
  | [_, _] => simp [readU32le] at h
  | [_, _, _] => simp [readU32le] at h
  | b0 :: b1 :: b2 :: b3 :: rest =>
    simp only [readU32le, Option.some.injEq, Prod.mk.injEq] at h
    obtain ⟨rfl, rfl⟩ := h
    have hb0 : b0 < 256 := hb b0 (by simp)
    have hb1 : b1 < 256 := hb b1 (by simp)
    have hb2 : b2 < 256 := hb b2 (by simp)
    have hb3 : b3 < 256 := hb b3 (by simp)
    simp only [List.cons_append, List.nil_append, List.cons.injEq]
    exact ⟨by omega, by omega, by omega, by omega, trivial⟩

lemma readBytesExact_spec {k : Nat} {s t r : List Nat}
    (h : readBytesExact k s = some (t, r)) :
    t ++ r = s ∧ t.length = k := by
  rw [readBytesExact] at h
  split at h
  · simp only [Option.some.injEq, Prod.mk.injEq] at h
    obtain ⟨rfl, rfl⟩ := h
    exact ⟨List.take_append_drop k s, by simpa using Nat.min_eq_left (by assumption)⟩
  · cases h

lemma read_socket_addr_spec {s r : List Nat} {addr : SockAddr}
    (h : read_socket_addr s = some (addr, r)) (hb : ∀ b ∈ s, b < 256) :
    write_peer_addr addr ++ r = s := by
  simp only [read_socket_addr, Option.bind_eq_some] at h
  obtain ⟨⟨addr_type, s1⟩, hu8, h⟩ := h
  dsimp only at h
  obtain ⟨⟨port, s2⟩, hu16, h⟩ := h
  dsimp only at h
  obtain ⟨h8, htype⟩ := readU8_spec hu8 hb
  have hb1 : ∀ b ∈ s1, b < 256 := bytes_lt_of_append h8 hb
  obtain ⟨h16, hport⟩ := readU16le_spec hu16 hb1
  have hb2 : ∀ b ∈ s2, b < 256 := bytes_lt_of_append h16 hb1
  by_cases ht : addr_type = IPV4_TYPE_ID
  · rw [if_pos ht] at h
    simp only [Option.bind_eq_some, Option.pure_def, Option.some.injEq,
      Prod.mk.injEq] at h
    obtain ⟨⟨a, s3⟩, hu32, haddr, rfl⟩ := h
    have h32 := readU32le_spec hu32 hb2
    subst haddr
    rw [← h8, ← h16, ← h32, write_peer_addr, ht]
    simp [List.append_assoc]
  · rw [if_neg ht] at h
    cases h

lemma readObjectIds_spec {n : Nat} {s r : List Nat} {ids : List ObjectId}
    (h : readObjectIds n s = some (ids, r)) :
    ids.flatten ++ r = s ∧ ids.length = n := by
  induction n generalizing s ids with
  | zero =>
    simp only [readObjectIds, Option.some.injEq, Prod.mk.injEq] at h
    obtain ⟨rfl, rfl⟩ := h
    simp
  | succ n ih =>
    simp only [readObjectIds, Option.bind_eq_some, Option.pure_def,
      Option.some.injEq, Prod.mk.injEq] at h
    obtain ⟨⟨oid, s1⟩, hread, h⟩ := h
    dsimp only at h
    obtain ⟨⟨ids', s2⟩, hrec, hcons, rfl⟩ := h
    subst hcons
    obtain ⟨happ, _⟩ := readBytesExact_spec hread
    obtain ⟨happ', hlen⟩ := ih hrec
    constructor
    · rw [← happ, ← happ']
      simp [List.append_assoc]
    · simp [hlen]

lemma read_object_id_list_spec {s r : List Nat} {ids : List ObjectId}
    (h : read_object_id_list s = some (ids, r)) (hb : ∀ b ∈ s, b < 256) :
    write_object_id_list ids ++ r = s := by
  simp only [read_object_id_list, Option.bind_eq_some] at h
  obtain ⟨⟨num_ids, s1⟩, hu16, hids⟩ := h
  dsimp only at hids
  obtain ⟨h16, _⟩ := readU16le_spec hu16 hb
  obtain ⟨happ, hlen⟩ := readObjectIds_spec hids
  rw [write_object_id_list, hlen, ← h16, ← happ]
  simp [List.append_assoc]

lemma peer_request_read_from_spec {s r : List Nat} {pr : PeerRequest}
    (h : PeerRequest.read_from s = some (pr, r)) (hb : ∀ b ∈ s, b < 256) :
    PeerRequest.write_into pr ++ r = s := by
  simp only [PeerRequest.read_from, Option.bind_eq_some] at h
  obtain ⟨⟨request_type, s1⟩, hu8, h⟩ := h
  dsimp only at h
  obtain ⟨h8, htype⟩ := readU8_spec hu8 hb
  have hb1 : ∀ b ∈ s1, b < 256 := bytes_lt_of_append h8 hb
  by_cases hc : request_type = COPY_TYPE_ID
  · rw [if_pos hc] at h
    simp only [Option.bind_eq_some, Option.pure_def, Option.some.injEq,
      Prod.mk.injEq] at h
    obtain ⟨⟨from_, s2⟩, haddr, h⟩ := h
    dsimp only at h
    obtain ⟨⟨objects, s3⟩, hids, hpr, rfl⟩ := h
    subst hpr
    have ha := read_socket_addr_spec haddr hb1
    have hb2 : ∀ b ∈ s2, b < 256 := bytes_lt_of_append ha hb1
    have hi := read_object_id_list_spec hids hb2
    rw [← h8, ← ha, ← hi, PeerRequest.write_into, hc]
    simp [List.append_assoc]
  · rw [if_neg hc] at h
    by_cases ht : request_type = TAKE_TYPE_ID
    · rw [if_pos ht] at h
      simp only [Option.bind_eq_some, Option.pure_def, Option.some.injEq,
        Prod.mk.injEq] at h
      obtain ⟨⟨from_, s2⟩, haddr, h⟩ := h
      dsimp only at h
      obtain ⟨⟨objects, s3⟩, hids, hpr, rfl⟩ := h
      subst hpr
      have ha := read_socket_addr_spec haddr hb1
      have hb2 : ∀ b ∈ s2, b < 256 := bytes_lt_of_append ha hb1
      have hi := read_object_id_list_spec hids hb2
      rw [← h8, ← ha, ← hi, PeerRequest.write_into, ht]
      simp [List.append_assoc]
    · rw [if_neg ht] at h
      cases h

lemma readPeerRequests_spec {n : Nat} {s r : List Nat}
    {prs : List PeerRequest}
    (h : readPeerRequests n s = some (prs, r)) (hb : ∀ b ∈ s, b < 256) :
    (prs.map PeerRequest.write_into).flatten ++ r = s ∧ prs.length = n := by
  induction n generalizing s prs with
  | zero =>
    simp only [readPeerRequests, Option.some.injEq, Prod.mk.injEq] at h
    obtain ⟨rfl, rfl⟩ := h
    simp
  | succ n ih =>
    simp only [readPeerRequests, Option.bind_eq_some, Option.pure_def,
      Option.some.injEq, Prod.mk.injEq] at h
    obtain ⟨⟨pr, s1⟩, hread, h⟩ := h
    dsimp only at h
    obtain ⟨⟨prs', s2⟩, hrec, hcons, rfl⟩ := h
    subst hcons
    have happ := peer_request_read_from_spec hread hb
    have hb1 : ∀ b ∈ s1, b < 256 := bytes_lt_of_append happ hb
    obtain ⟨happ', hlen⟩ := ih hrec hb1
    constructor
    · rw [← happ, ← happ']
      simp [List.append_assoc]
    · simp [hlen]

/-- C4. Wire round-trip: for every `Request` value `R` successfully parsed
from a byte stream `B` (leaving a remainder `rest`), re-encoding `R` with
`write_into` reproduces exactly the consumed prefix of `B`. The hypothesis
`∀ b ∈ s, b < 256` states that `s` is a genuine byte stream. Successful
parses only ever contain IPv4 peer addresses, because the IPv6 reader is
`unimplemented!()`. -/
theorem request_wire_roundtrip {s rest : List Nat} {r : Request}
    (hb : ∀ b ∈ s, b < 256)
    (h : Request.read_from s = some (r, rest)) :
    Request.write_into r ++ rest = s := by
  simp only [Request.read_from, Option.bind_eq_some] at h
  obtain ⟨⟨request_type, s1⟩, hu8, h⟩ := h
  dsimp only at h
  obtain ⟨h8, htype⟩ := readU8_spec hu8 hb
  have hb1 : ∀ b ∈ s1, b < 256 := bytes_lt_of_append h8 hb
  by_cases hs : request_type = SYNC_TYPE_ID
  · rw [if_pos hs] at h
    simp only [Option.bind_eq_some, Option.pure_def, Option.some.injEq,
      Prod.mk.injEq] at h
    obtain ⟨⟨num, s2⟩, hu16, h⟩ := h
    dsimp only at h
    obtain ⟨⟨prs, s3⟩, hprs, hreq, rfl⟩ := h
    subst hreq
    obtain ⟨h16, _⟩ := readU16le_spec hu16 hb1
    have hb2 : ∀ b ∈ s2, b < 256 := bytes_lt_of_append h16 hb1
    obtain ⟨happ, hlen⟩ := readPeerRequests_spec hprs hb2
    rw [Request.write_into, hlen, ← h8, ← h16, ← happ, hs]
    simp [List.append_assoc]
  · rw [if_neg hs] at h
    by_cases hc : request_type = COPY_TYPE_ID
    · rw [if_pos hc] at h
      simp only [Option.bind_eq_some, Option.pure_def, Option.some.injEq,
        Prod.mk.injEq] at h
      obtain ⟨⟨ids, s2⟩, hids, hreq, rfl⟩ := h
      subst hreq
      have hi := read_object_id_list_spec hids hb1
      rw [Request.write_into, ← h8, ← hi, hc]
      simp [List.append_assoc]
    · rw [if_neg hc] at h
      by_cases ht : request_type = TAKE_TYPE_ID
      · rw [if_pos ht] at h
        simp only [Option.bind_eq_some, Option.pure_def, Option.some.injEq,
          Prod.mk.injEq] at h
        obtain ⟨⟨ids, s2⟩, hids, hreq, rfl⟩ := h
        subst hreq
        have hi := read_object_id_list_spec hids hb1
        rw [Request.write_into, ← h8, ← hi, ht]
        simp [List.append_assoc]
      · rw [if_neg ht] at h
        cases h

/-- C4 (witness). The round-trip theorem applied to the concrete 23-byte
stream encoding a COPY request with one object id. -/
theorem request_wire_roundtrip_witness :
    (∀ b ∈ 2 :: 1 :: 0 :: List.replicate 20 7, b < 256) ∧
    Request.read_from (2 :: 1 :: 0 :: List.replicate 20 7) =
      some (Request.copy [List.replicate 20 7], []) ∧
    Request.write_into (Request.copy [List.replicate 20 7]) ++ [] =
      2 :: 1 :: 0 :: List.replicate 20 7 :=
  ⟨by decide, by decide, request_wire_roundtrip (by decide) (by decide)⟩

lemma insertUnique_isSome_iff (l : List ObjectId) : ∀ seen : List ObjectId,
    (insertUnique seen l).isSome = true ↔ l.Nodup ∧ ∀ x ∈ l, x ∉ seen := by
  induction l with
  | nil =>
    intro seen
    simp [insertUnique]
  | cons oid rest ih =>
    intro seen
    rw [insertUnique]
    by_cases hmem : oid ∈ seen
    · rw [if_pos hmem]
      simp only [Option.isSome_none, Bool.false_eq_true, false_iff]
      rintro ⟨_, hall⟩
      exact hall oid (List.mem_cons_self _ _) hmem
    · rw [if_neg hmem, ih (oid :: seen)]
      constructor
      · rintro ⟨hnd, hall⟩
        have hoid : oid ∉ rest := fun hc =>
          hall oid hc (List.mem_cons_self _ _)
        refine ⟨List.nodup_cons.mpr ⟨hoid, hnd⟩, ?_⟩
        intro x hx
        rcases List.mem_cons.mp hx with rfl | hx'
        · exact hmem
        · intro hc
          exact hall x hx' (List.mem_cons_of_mem _ hc)
      · rintro ⟨hnd, hall⟩
        obtain ⟨hoid, hnd'⟩ := List.nodup_cons.mp hnd
        refine ⟨hnd', ?_⟩
        intro x hx hc
        rcases List.mem_cons.mp hc with rfl | hc'
        · exact hoid hx
        · exact hall x (List.mem_cons_of_mem _ hx) hc'

lemma insertUnique_mem (l : List ObjectId) : ∀ seen s' : List ObjectId,
    insertUnique seen l = some s' → ∀ x, x ∈ s' ↔ x ∈ l ∨ x ∈ seen := by
  induction l with
  | nil =>
    intro seen s' h x
    simp only [insertUnique, Option.some.injEq] at h
    subst h
    simp
  | cons oid rest ih =>
    intro seen s' h x
    rw [insertUnique] at h
    by_cases hmem : oid ∈ seen
    · rw [if_pos hmem] at h
      cases h
    · rw [if_neg hmem] at h
      rw [ih _ _ h x]
      simp only [List.mem_cons]
      tauto

lemma peer_request_validate_ok_iff (pr : PeerRequest) :
    pr.validate = Except.ok () ↔
      1 ≤ pr.incoming_objects.length ∧
      pr.incoming_objects.length ≤ MAX_OBJECT_ID_LIST_LEN := by
  have main : ∀ objects : List ObjectId,
      (if objects.isEmpty then
        (Except.error RequestError.objectIdListTooShort :
          Except RequestError Unit)
      else if objects.length > MAX_OBJECT_ID_LIST_LEN then
        Except.error (RequestError.objectIdListTooLong objects.length)
      else Except.ok ()) = Except.ok () ↔
        1 ≤ objects.length ∧ objects.length ≤ MAX_OBJECT_ID_LIST_LEN := by
    intro objects
    cases objects with
    | nil => simp
    | cons a tl =>
      simp only [List.isEmpty_cons, Bool.false_eq_true, if_false]
      split_ifs with h2
      · simp only [false_iff]
        intro hc
        omega
      · simp only [true_iff]
        constructor
        · simp
        · omega
  cases pr with
  | copy from_ objects =>
    simpa only [PeerRequest.validate, PeerRequest.incoming_objects] using
      main objects
  | take from_ objects =>
    simpa only [PeerRequest.validate, PeerRequest.incoming_objects] using
      main objects

lemma validateSyncLoop_ok_iff (prs : List PeerRequest) :
    ∀ seen : List ObjectId,
    validateSyncLoop seen prs = Except.ok () ↔
      (∀ pr ∈ prs, pr.validate = Except.ok ()) ∧
      (prs.map PeerRequest.incoming_objects).flatten.Nodup ∧
      ∀ x ∈ (prs.map PeerRequest.incoming_objects).flatten, x ∉ seen := by
  induction prs with
  | nil =>
    intro seen
    simp [validateSyncLoop]
  | cons pr rest ih =>
    intro seen
    rw [validateSyncLoop]
    cases hv : pr.validate with
    | error e =>
      simp only [false_iff, reduceCtorEq]
      rintro ⟨hall, _⟩
      have := hall pr (List.mem_cons_self _ _)
      rw [hv] at this
      cases this
    | ok u =>
      cases u
      cases hins : insertUnique seen pr.incoming_objects with
      | none =>
        simp only [false_iff, reduceCtorEq]
        rintro ⟨_, hnd, hdisj⟩
        have hnone : ¬((insertUnique seen pr.incoming_objects).isSome = true) := by
          rw [hins]
          simp
        apply hnone
        rw [insertUnique_isSome_iff]
        simp only [List.map_cons, List.flatten_cons, List.nodup_append] at hnd
        refine ⟨hnd.1, ?_⟩
        intro x hx
        exact hdisj x (by
          simp only [List.map_cons, List.flatten_cons, List.mem_append]
          exact Or.inl hx)
      | some seen1 =>
        have hsome : pr.incoming_objects.Nodup ∧
            ∀ x ∈ pr.incoming_objects, x ∉ seen := by
          rw [← insertUnique_isSome_iff]
          rw [hins]
          rfl
        have hmem1 : ∀ x, x ∈ seen1 ↔ x ∈ pr.incoming_objects ∨ x ∈ seen :=
          insertUnique_mem _ _ _ hins
        rw [ih seen1]
        simp only [List.map_cons, List.flatten_cons, List.nodup_append,
          List.mem_append]
        constructor
        · rintro ⟨hallr, hndr, hsub⟩
          refine ⟨?_, ⟨hsome.1, hndr, ?_⟩, ?_⟩
          · intro q hq
            rcases List.mem_cons.mp hq with rfl | hq'
            · exact hv
            · exact hallr q hq'
          · intro a ha hb
            exact hsub a hb ((hmem1 a).mpr (Or.inl ha))
          · intro x hx
            rcases hx with hx | hx
            · exact hsome.2 x hx
            · intro hc
              exact hsub x hx ((hmem1 x).mpr (Or.inr hc))
        · rintro ⟨hall, ⟨hnd1, hndr, hdisj⟩, hforall⟩
          refine ⟨?_, hndr, ?_⟩
          · intro q hq
            exact hall q (List.mem_cons_of_mem _ hq)
          · intro x hx hc
            rcases (hmem1 x).mp hc with hc' | hc'
            · exact hdisj hc' hx
            · exact hforall x (Or.inr hx) hc'

/-- C6. `Request::validate` returns `Ok` if and only if: for SYNC, the
peer-request list has between 1 and `MAX_NUM_SYNC_PEERS = 1024` entries,
every peer request's object-id list has between 1 and
`MAX_OBJECT_ID_LIST_LEN = 65536` ids, and the flattened incoming ids
contain no duplicates; for COPY and TAKE, the object-id list has between 1
and 65536 ids and contains no duplicates. (Each violated condition returns
the matching `RequestError` variant, as visible in the definition of
`Request.validate`.) -/
theorem request_validate_ok_iff (r : Request) :
    r.validate = Except.ok () ↔
      (match r with
      | Request.sync prs =>
          1 ≤ prs.length ∧ prs.length ≤ MAX_NUM_SYNC_PEERS ∧
          (∀ pr ∈ prs, 1 ≤ pr.incoming_objects.length ∧
            pr.incoming_objects.length ≤ MAX_OBJECT_ID_LIST_LEN) ∧
          (prs.map PeerRequest.incoming_objects).flatten.Nodup
      | Request.copy ids =>
          1 ≤ ids.length ∧ ids.length ≤ MAX_OBJECT_ID_LIST_LEN ∧ ids.Nodup
      | Request.take ids =>
          1 ≤ ids.length ∧ ids.length ≤ MAX_OBJECT_ID_LIST_LEN ∧
            ids.Nodup) := by
  have main : ∀ ids : List ObjectId,
      (if ids.isEmpty then
        (Except.error RequestError.objectIdListTooShort :
          Except RequestError Unit)
      else if ids.length > MAX_OBJECT_ID_LIST_LEN then
        Except.error (RequestError.objectIdListTooLong ids.length)
      else
        match insertUnique [] ids with
        | none => Except.error RequestError.duplicateObjectIds
        | some _ => Except.ok ()) = Except.ok () ↔
        1 ≤ ids.length ∧ ids.length ≤ MAX_OBJECT_ID_LIST_LEN ∧
          ids.Nodup := by
    intro ids
    cases ids with
    | nil => simp
    | cons a tl =>
      simp only [List.isEmpty_cons, Bool.false_eq_true, if_false]
      split_ifs with h2
      · simp only [false_iff]
        intro hc
        omega
      · have hlen : 1 ≤ (a :: tl).length ∧
            (a :: tl).length ≤ MAX_OBJECT_ID_LIST_LEN := by
          constructor
          · simp
          · omega
        cases hins : insertUnique [] (a :: tl) with
        | none =>
          simp only [false_iff, reduceCtorEq]
          rintro ⟨_, _, hnd⟩
          have hnone : ¬((insertUnique [] (a :: tl)).isSome = true) := by
            rw [hins]
            simp
          apply hnone
          rw [insertUnique_isSome_iff]
          exact ⟨hnd, by simp⟩
        | some s' =>
          simp only [true_iff]
          have hsome : (a :: tl).Nodup ∧ ∀ x ∈ a :: tl, x ∉ ([] : List ObjectId) := by
            rw [← insertUnique_isSome_iff, hins]
            rfl
          exact ⟨hlen.1, hlen.2, hsome.1⟩
  cases r with
  | sync prs =>
    simp only [Request.validate]
    cases prs with
    | nil => simp
    | cons p rest =>
      simp only [List.isEmpty_cons, Bool.false_eq_true, if_false]
      split_ifs with h2
      · simp only [false_iff, reduceCtorEq]
        intro hc
        omega
      · rw [validateSyncLoop_ok_iff]
        simp only [List.not_mem_nil, not_false_iff, implies_true, and_true]
        constructor
        · rintro ⟨hall, hnd⟩
          refine ⟨by simp, by omega, ?_, hnd⟩
          intro pr hpr
          exact (peer_request_validate_ok_iff pr).mp (hall pr hpr)
        · rintro ⟨_, _, hall, hnd⟩
          refine ⟨?_, hnd⟩
          intro pr hpr
          exact (peer_request_validate_ok_iff pr).mpr (hall pr hpr)
  | copy ids =>
    simpa only [Request.validate] using main ids
  | take ids =>
    simpa only [Request.validate] using main ids

/-- C10. The receiver's `ObjectMetaTooLarge` branch is unreachable: the
decoded metadata size is the low 16 bits of the header, hence at most
`65535 < MAX_META_SIZE = 65536`, so `receive_object` never returns
`ObjectMetaTooLarge`, for any input stream and any store behaviour. -/
theorem receive_object_never_meta_too_large (oid : ObjectId)
    (from_peer : SockAddr) (create_ok seal_ok : Bool) (s : List Nat) :
    is_meta_too_large
      (receive_object oid from_peer create_ok seal_ok s) = false := by
  rw [receive_object]
  cases h64 : readU64le s with
  | none => rfl
  | some p =>
    obtain ⟨header, s1⟩ := p
    dsimp only
    have hmeta : ¬(header_meta_size header > MAX_META_SIZE) := by
      rw [header_meta_size, MAX_META_SIZE]
      omega
    by_cases h0 : header_data_size header = 0
    · rw [if_pos h0]
      rfl
    · rw [if_neg h0]
      by_cases h1 : header_data_size header > MAX_DATA_SIZE
      · rw [if_pos h1]
        rfl
      · rw [if_neg h1, if_neg hmeta]
        cases readBytesExact (header_meta_size header) s1 with
        | none => rfl
        | some p2 =>
          obtain ⟨meta_buf, s2⟩ := p2
          dsimp only
          cases create_ok with
          | false => rfl
          | true =>
            simp only [if_true]
            cases readBytesExact (header_data_size header) s2 with
            | none => rfl
            | some p3 =>
              obtain ⟨data_buf, s3⟩ := p3
              dsimp only
              cases seal_ok with
              | false => rfl
              | true => rfl

/-- C8. When the first data-plane byte `s` differs from `BEGIN`, the
receiver fails with `PeerError(s)` (making no rollback call), and the
response code reported for that error is `s` forwarded verbatim — except
that `PLASMA_STORE_ERR` (0x60) maps to `PEER_PLASMA_STORE_ERR` (0x61). -/
theorem peer_error_code_forwarded (object_ids : List ObjectId)
    (peer_address : SockAddr) (env : RecvEnv) (status : Nat)
    (rest : List Nat) (hs : status ≠ status_codes.BEGIN) :
    ObjectReceiver.run object_ids peer_address env (status :: rest) =
      (Except.error (ObjectReceiveError.peerError peer_address status),
        []) ∧
    (ObjectReceiveError.peerError peer_address status).response_code =
      (if status = status_codes.PLASMA_STORE_ERR then
        status_codes.PEER_PLASMA_STORE_ERR
      else status) := by
  constructor
  · rw [ObjectReceiver.run]
    simp only [readU8]
    rw [if_pos hs]
  · rfl

/-- C8 (witness). A peer that reports `PLASMA_STORE_ERR` (0x60) makes the
receiver fail with `PeerError(0x60)`, reported as 0x61. -/
theorem peer_error_code_forwarded_witness :
    ((0x60 : Nat) ≠ status_codes.BEGIN) ∧
    ObjectReceiver.run [] (SockAddr.v4 127 0 0 1 2021)
        ⟨fun _ => true, fun _ => true⟩ [0x60] =
      (Except.error
        (ObjectReceiveError.peerError (SockAddr.v4 127 0 0 1 2021) 0x60),
        []) ∧
    (ObjectReceiveError.peerError (SockAddr.v4 127 0 0 1 2021)
        0x60).response_code = 0x61 :=
  ⟨by decide,
    (peer_error_code_forwarded [] (SockAddr.v4 127 0 0 1 2021)
      ⟨fun _ => true, fun _ => true⟩ 0x60 [] (by decide)).1,
    by decide⟩

lemma receiveLoop_ok (all_ids : List ObjectId) (peer : SockAddr)
    (env : RecvEnv) :
    ∀ (remaining : List ObjectId) (i : Nat) (s : List Nat)
      (dels : List (List ObjectId)),
    receiveLoop all_ids peer env i remaining s = (Except.ok (), dels) →
    dels = [] := by
  intro remaining
  induction remaining with
  | nil =>
    intro i s dels h
    rw [receiveLoop] at h
    exact (Prod.mk.injEq _ _ _ _ ▸ h).2.symm
  | cons oid rest ih =>
    intro i s dels h
    rw [receiveLoop] at h
    cases hro : receive_object oid peer (env.create_ok i) (env.seal_ok i)
        s with
    | ok p =>
      rw [hro] at h
      obtain ⟨_, s1⟩ := p
      exact ih (i + 1) s1 dels h
    | error e =>
      rw [hro] at h
      simp only [Prod.mk.injEq, reduceCtorEq, false_and] at h

lemma receiveLoop_error (all_ids : List ObjectId) (peer : SockAddr)
    (env : RecvEnv) :
    ∀ (remaining : List ObjectId) (i : Nat) (s : List Nat)
      (e : ObjectReceiveError) (dels : List (List ObjectId)),
    receiveLoop all_ids peer env i remaining s = (Except.error e, dels) →
    ∃ j, j < remaining.length ∧ dels = [all_ids.take (i + j + 1)] := by
  intro remaining
  induction remaining with
  | nil =>
    intro i s e dels h
    rw [receiveLoop] at h
    simp only [Prod.mk.injEq, reduceCtorEq, false_and] at h
  | cons oid rest ih =>
    intro i s e dels h
    rw [receiveLoop] at h
    cases hro : receive_object oid peer (env.create_ok i) (env.seal_ok i)
        s with
    | ok p =>
      rw [hro] at h
      obtain ⟨_, s1⟩ := p
      obtain ⟨j, hj, hd⟩ := ih (i + 1) s1 e dels h
      refine ⟨j + 1, by simpa using Nat.succ_lt_succ hj, ?_⟩
      have harith : i + 1 + j + 1 = i + (j + 1) + 1 := by omega
      rw [hd, harith]
    | error e' =>
      rw [hro] at h
      simp only [Prod.mk.injEq, Except.error.injEq] at h
      exact ⟨0, by simp, by rw [← h.2]⟩

/-- C9. Receiver rollback: in a run whose first byte is `BEGIN`, a failure
while processing the object at index `i` makes the receiver invoke
`delete_many` exactly once, on the id prefix `[0..=i]` (any deletion error
being suppressed inside the run); a successful run makes no rollback
call. -/
theorem receiver_rollback (object_ids : List ObjectId)
    (peer_address : SockAddr) (env : RecvEnv) (rest : List Nat) :
    (match ObjectReceiver.run object_ids peer_address env
        (status_codes.BEGIN :: rest) with
    | (Except.ok _, dels) => dels = []
    | (Except.error _, dels) =>
        ∃ i, i < object_ids.length ∧ dels = [object_ids.take (i + 1)]) := by
  have hrun : ObjectReceiver.run object_ids peer_address env
      (status_codes.BEGIN :: rest) =
      receiveLoop object_ids peer_address env 0 object_ids rest := by
    rw [ObjectReceiver.run]
    simp [readU8]
  rw [hrun]
  cases hloop : receiveLoop object_ids peer_address env 0 object_ids
      rest with
  | mk res dels =>
    cases res with
    | ok u =>
      cases u
      exact receiveLoop_ok object_ids peer_address env object_ids 0 rest
        dels hloop
    | error e =>
      obtain ⟨j, hj, hd⟩ :=
        receiveLoop_error object_ids peer_address env object_ids 0 rest e
          dels hloop
      exact ⟨j, hj, by simpa using hd⟩

/-- C3 (counterexample). The claim says a SYNC whose peer request carries
the client socket's local address fails with `PeerAddressIsSelf` and that
the client receives the single byte 0x90. The first half holds, but the
dispatcher returns the error before the response buffer is ever built or
written: the client receives no bytes at all, so the written bytes differ
from `[0x90]`. -/
theorem dispatcher_self_request_counterexample :
    Dispatcher.run
        [PeerRequest.copy (SockAddr.v4 127 0 0 1 2021)
          [List.replicate 20 0]]
        ⟨some (SockAddr.v4 127 0 0 1 2021), fun _ => TaskOutcome.ok,
          true⟩ =
      ([], Except.error SyncError.peerAddressIsSelf) ∧
    (Dispatcher.run
        [PeerRequest.copy (SockAddr.v4 127 0 0 1 2021)
          [List.replicate 20 0]]
        ⟨some (SockAddr.v4 127 0 0 1 2021), fun _ => TaskOutcome.ok,
          true⟩).1 ≠ [status_codes.PEER_CONNECTION_ERR] := by
  constructor
  · rfl
  · intro hc
    cases hc

/-- C3 (amended). For every SYNC request in which some peer request's
`from` address equals the client socket's local bound address, the
dispatcher fails the entire SYNC with `PeerAddressIsSelf` before spawning
any peer task (the result does not depend on the task-outcome oracle), and
writes no bytes to the client socket; `PeerAddressIsSelf` carries response
code 0x90 (`PEER_CONNECTION_ERR`), but that byte is never written on this
path. -/
theorem dispatcher_self_request (requests : List PeerRequest)
    (la : SockAddr) (outcomes : Nat → TaskOutcome) (w : Bool)
    (h : requests.any (fun request => request.contains_peer la) = true) :
    Dispatcher.run requests ⟨some la, outcomes, w⟩ =
      ([], Except.error SyncError.peerAddressIsSelf) ∧
    SyncError.peerAddressIsSelf.response_code =
      status_codes.PEER_CONNECTION_ERR := by
  constructor
  · rw [Dispatcher.run]
    dsimp only
    rw [if_pos h]
  · rfl

/-- C3 (witness). The amended theorem applied to a one-request SYNC whose
peer address is the local address. -/
theorem dispatcher_self_request_witness :
    ([PeerRequest.take (SockAddr.v4 127 0 0 1 2021)
        [List.replicate 20 3]].any
      (fun request =>
        request.contains_peer (SockAddr.v4 127 0 0 1 2021)) = true) ∧
    Dispatcher.run
        [PeerRequest.take (SockAddr.v4 127 0 0 1 2021)
          [List.replicate 20 3]]
        ⟨some (SockAddr.v4 127 0 0 1 2021), fun _ => TaskOutcome.panicked,
          false⟩ =
      ([], Except.error SyncError.peerAddressIsSelf) ∧
    SyncError.peerAddressIsSelf.response_code =
      status_codes.PEER_CONNECTION_ERR :=
  ⟨by decide,
    dispatcher_self_request _ _ _ _ (by decide)⟩

/-- C5. For every SYNC of `n` peer requests that passes the self-address
check and whose final client write succeeds, the dispatcher writes exactly
`n` bytes, and the byte at index `i` is `SUCCESS` (0x41) if task `i`
succeeded, the task error's response code if it returned an error, and
`PEER_REQUEST_PANICKED` (0x62) if it panicked — indexed by peer-request
position, independent of completion order. -/
theorem sync_response_shape (requests : List PeerRequest) (la : SockAddr)
    (env : DispatchEnv) (hl : env.local_addr = some la)
    (hself :
      requests.any (fun request => request.contains_peer la) = false)
    (hw : env.client_write_ok = true) :
    (Dispatcher.run requests env).2 = Except.ok () ∧
    (Dispatcher.run requests env).1.length = requests.length ∧
    ∀ i, i < requests.length →
      (Dispatcher.run requests env).1[i]? =
        some (match env.outcomes i with
          | TaskOutcome.ok => status_codes.SUCCESS
          | TaskOutcome.fail err => err.response_code
          | TaskOutcome.panicked => status_codes.PEER_REQUEST_PANICKED) := by
  have hrun : Dispatcher.run requests env =
      ((List.range requests.length).map fun i =>
        match env.outcomes i with
        | TaskOutcome.ok => status_codes.SUCCESS
        | TaskOutcome.fail err => err.response_code
        | TaskOutcome.panicked => status_codes.PEER_REQUEST_PANICKED,
      Except.ok ()) := by
    rw [Dispatcher.run, hl]
    dsimp only
    rw [hself]
    simp only [Bool.false_eq_true, if_false, hw, if_true]
  rw [hrun]
  refine ⟨rfl, by simp, ?_⟩
  intro i hi
  simp [List.getElem?_map, List.getElem?_range, hi]

/-- C5 (witness). The theorem applied to a one-request SYNC whose task
panicked: the response is the single byte 0x62. -/
theorem sync_response_shape_witness :
    (Dispatcher.run
        [PeerRequest.take (SockAddr.v4 10 0 0 1 80) [List.replicate 20 1]]
        ⟨some (SockAddr.v4 127 0 0 1 2021), fun _ => TaskOutcome.panicked,
          true⟩).2 = Except.ok () ∧
    (Dispatcher.run
        [PeerRequest.take (SockAddr.v4 10 0 0 1 80) [List.replicate 20 1]]
        ⟨some (SockAddr.v4 127 0 0 1 2021), fun _ => TaskOutcome.panicked,
          true⟩).1.length = 1 ∧
    (Dispatcher.run
        [PeerRequest.take (SockAddr.v4 10 0 0 1 80) [List.replicate 20 1]]
        ⟨some (SockAddr.v4 127 0 0 1 2021), fun _ => TaskOutcome.panicked,
          true⟩).1[0]? = some status_codes.PEER_REQUEST_PANICKED := by
  have h := sync_response_shape
    [PeerRequest.take (SockAddr.v4 10 0 0 1 80) [List.replicate 20 1]]
    (SockAddr.v4 127 0 0 1 2021)
    ⟨some (SockAddr.v4 127 0 0 1 2021), fun _ => TaskOutcome.panicked,
      true⟩ rfl (by decide) rfl
  exact ⟨h.1, h.2.1, h.2.2 0 (by decide)⟩

lemma write_op_trace {fail_from : Option Nat} {st st' : Nat × List Nat}
    {bytes : List Nat} (h : write_op fail_from st bytes = some st') :
    st'.2 = st.2 ++ bytes := by
  rw [write_op.eq_def] at h
  cases fail_from with
  | none =>
    simp only [Option.some.injEq] at h
    rw [← h]
  | some k =>
    dsimp only at h
    by_cases hk : k ≤ st.1
    · rw [if_pos hk] at h
      cases h
    · rw [if_neg hk] at h
      simp only [Option.some.injEq] at h
      rw [← h]

lemma send_object_trace (fail_from : Option Nat) (ob : ObjectBuffer)
    (st : Nat × List Nat) :
    ∃ ext, (send_object fail_from ob st).1.2 = st.2 ++ ext := by
  rw [send_object.eq_def]
  cases h1 : write_op fail_from st
      (writeU64le (object_header ob.meta.length ob.data.length)) with
  | none => exact ⟨[], by simp⟩
  | some st1 =>
    have e1 := write_op_trace h1
    dsimp only
    cases h2 : write_op fail_from st1 ob.meta with
    | none => exact ⟨_, e1⟩
    | some st2 =>
      have e2 := write_op_trace h2
      dsimp only
      cases h3 : write_op fail_from st2 ob.data with
      | none =>
        refine ⟨writeU64le (object_header ob.meta.length ob.data.length) ++
          ob.meta, ?_⟩
        dsimp only
        rw [e2, e1, List.append_assoc]
      | some st3 =>
        have e3 := write_op_trace h3
        refine ⟨writeU64le (object_header ob.meta.length ob.data.length) ++
          ob.meta ++ ob.data, ?_⟩
        dsimp only
        simp [e3, e2, e1, List.append_assoc]

lemma sendLoop_trace (fail_from : Option Nat) :
    ∀ (objects : List ObjectBuffer) (st : Nat × List Nat),
    ∃ ext, (sendLoop fail_from objects st).1.2 = st.2 ++ ext := by
  intro objects
  induction objects with
  | nil =>
    intro st
    exact ⟨[], by simp [sendLoop]⟩
  | cons ob rest ih =>
    intro st
    rw [sendLoop.eq_def]
    dsimp only
    obtain ⟨ext1, he1⟩ := send_object_trace fail_from ob st
    cases hso : send_object fail_from ob st with
    | mk st1 b =>
      rw [hso] at he1
      cases b with
      | false =>
        dsimp only
        exact ⟨ext1, he1⟩
      | true =>
        dsimp only
        obtain ⟨ext2, he2⟩ := ih st1
        refine ⟨ext1 ++ ext2, ?_⟩
        rw [he2, he1, List.append_assoc]

lemma send_objects_spec (env : SendEnv) :
    (match ObjectSender.send_objects env with
    | (st, Except.ok _) => st.2.take 1 = [status_codes.BEGIN]
    | (st, Except.error e) =>
      match e.response_code with
      | some _ => st = (0, [])
      | none => st.2 = [] ∨ st.2.take 1 = [status_codes.BEGIN]) := by
  rw [ObjectSender.send_objects.eq_def]
  cases hcd : (ObjectSender.check_deleting env.peer_addr env.object_ids
      env.delete_after_send env.deleting).1 with
  | error e =>
    dsimp only
    cases e.response_code with
    | some c => rfl
    | none => exact Or.inl rfl
  | ok u =>
    dsimp only
    cases hgo : ObjectSender.get_objects env.peer_addr env.object_ids
        env.get_many with
    | error e =>
      dsimp only
      cases e.response_code with
      | some c => rfl
      | none => exact Or.inl rfl
    | ok objects =>
      dsimp only
      cases hcs : ObjectSender.check_object_sizes env.peer_addr objects with
      | error e =>
        dsimp only
        cases e.response_code with
        | some c => rfl
        | none => exact Or.inl rfl
      | ok v =>
        dsimp only
        cases hw0 : write_op env.fail_from (0, [])
            [status_codes.BEGIN] with
        | none => exact Or.inl rfl
        | some st =>
          dsimp only
          have hw0t := write_op_trace hw0
          obtain ⟨ext, hext⟩ := sendLoop_trace env.fail_from objects st
          cases hsl : sendLoop env.fail_from objects st with
          | mk st1 b =>
            rw [hsl] at hext
            simp only [List.nil_append] at hw0t
            cases b with
            | true =>
              dsimp only
              rw [hext, hw0t]
              simp
            | false =>
              dsimp only
              refine Or.inr ?_
              rw [hext, hw0t]
              simp

/-- C7. Sender response-byte discipline: `ObjectSender::run` writes at most
one status byte in place of `BEGIN`, and only for failures that occur
before `BEGIN` is written — `ObjectDeletionScheduled` yields 0x70,
`ObjectsNotFound` 0x71, `StoreError` 0x60, `ObjectMetaTooLarge` 0x50 and
`ObjectDataTooLarge` 0x51 (the written trace is exactly that single byte,
or empty when the very write of the code fails) — while a
`ConnectionError` has no response code and appends nothing to the trace of
`send_objects`: after `BEGIN` is on the wire no status byte is ever
written. -/
theorem sender_response_byte_discipline (env : SendEnv) :
    (match ObjectSender.run env with
    | (trace, Except.ok _) => trace.take 1 = [status_codes.BEGIN]
    | (trace, Except.error e) =>
      match e with
      | ObjectSendError.objectDeletionScheduled _ _ =>
          trace = [status_codes.OB_DELETION_SCHEDULED_ERR] ∨ trace = []
      | ObjectSendError.objectsNotFound _ _ =>
          trace = [status_codes.OB_NOT_FOUND_ERR] ∨ trace = []
      | ObjectSendError.storeError _ =>
          trace = [status_codes.PLASMA_STORE_ERR] ∨ trace = []
      | ObjectSendError.objectMetaTooLarge _ _ _ =>
          trace = [status_codes.OB_META_TOO_LARGE_ERR] ∨ trace = []
      | ObjectSendError.objectDataTooLarge _ _ _ =>
          trace = [status_codes.OB_DATA_TOO_LARGE_ERR] ∨ trace = []
      | ObjectSendError.connectionError _ =>
          trace = (ObjectSender.send_objects env).1.2 ∧
          (trace = [] ∨ trace.take 1 = [status_codes.BEGIN])) := by
  have hspec := send_objects_spec env
  rw [ObjectSender.run]
  cases hso : ObjectSender.send_objects env with
  | mk st res =>
    rw [hso] at hspec
    cases res with
    | ok u =>
      cases u
      dsimp only at hspec ⊢
      exact hspec
    | error err =>
      cases err with
      | objectDeletionScheduled p ids =>
        dsimp only [ObjectSendError.response_code] at hspec
        subst hspec
        dsimp only [ObjectSendError.response_code]
        cases hw : write_op env.fail_from (0, [])
            [status_codes.OB_DELETION_SCHEDULED_ERR] with
        | some st1 => exact Or.inl (by simpa using write_op_trace hw)
        | none => exact Or.inr rfl
      | objectsNotFound p ids =>
        dsimp only [ObjectSendError.response_code] at hspec
        subst hspec
        dsimp only [ObjectSendError.response_code]
        cases hw : write_op env.fail_from (0, [])
            [status_codes.OB_NOT_FOUND_ERR] with
        | some st1 => exact Or.inl (by simpa using write_op_trace hw)
        | none => exact Or.inr rfl
      | storeError p =>
        dsimp only [ObjectSendError.response_code] at hspec
        subst hspec
        dsimp only [ObjectSendError.response_code]
        cases hw : write_op env.fail_from (0, [])
            [status_codes.PLASMA_STORE_ERR] with
        | some st1 => exact Or.inl (by simpa using write_op_trace hw)
        | none => exact Or.inr rfl
      | objectMetaTooLarge p oid n =>
        dsimp only [ObjectSendError.response_code] at hspec
        subst hspec
        dsimp only [ObjectSendError.response_code]
        cases hw : write_op env.fail_from (0, [])
            [status_codes.OB_META_TOO_LARGE_ERR] with
        | some st1 => exact Or.inl (by simpa using write_op_trace hw)
        | none => exact Or.inr rfl
      | objectDataTooLarge p oid n =>
        dsimp only [ObjectSendError.response_code] at hspec
        subst hspec
        dsimp only [ObjectSendError.response_code]
        cases hw : write_op env.fail_from (0, [])
            [status_codes.OB_DATA_TOO_LARGE_ERR] with
        | some st1 => exact Or.inl (by simpa using write_op_trace hw)
        | none => exact Or.inr rfl
      | connectionError p =>
        dsimp only [ObjectSendError.response_code] at hspec ⊢
        exact ⟨rfl, hspec⟩

/-- C2 (code-bug evaluation). A receiver R1 for id `x` prepares
successfully, inserting `x` into the `receiving` set. A second receiver R2
for the same `x` fails `prepare` with `AlreadyReceiving` — inserting
nothing — yet dropping R2 removes `x` from the set while R1 is still
active, because `Drop` removes the instance's ids unconditionally. The
sender side behaves symmetrically for the `deleting` set with two
`delete_after_send` senders. -/
theorem coordination_set_drop_clobbers_owner :
    ObjectReceiver.prepare (SockAddr.v4 10 0 0 1 80) [List.replicate 20 9]
        [] (Except.ok []) = (Except.ok (), [List.replicate 20 9]) ∧
    ObjectReceiver.prepare (SockAddr.v4 10 0 0 2 80) [List.replicate 20 9]
        [List.replicate 20 9] (Except.ok []) =
      (Except.error
        (ObjectReceiveError.alreadyReceiving (SockAddr.v4 10 0 0 2 80)
          [List.replicate 20 9]),
        [List.replicate 20 9]) ∧
    ObjectReceiver.drop [List.replicate 20 9] [List.replicate 20 9] = [] ∧
    ObjectSender.check_deleting (SockAddr.v4 10 0 0 1 80)
        [List.replicate 20 9] true [] =
      (Except.ok (), [List.replicate 20 9]) ∧
    ObjectSender.check_deleting (SockAddr.v4 10 0 0 2 80)
        [List.replicate 20 9] true [List.replicate 20 9] =
      (Except.error
        (ObjectSendError.objectDeletionScheduled (SockAddr.v4 10 0 0 2 80)
          [List.replicate 20 9]),
        [List.replicate 20 9]) ∧
    ObjectSender.drop true [List.replicate 20 9] [List.replicate 20 9] =
      [] := by
  exact ⟨rfl, rfl, rfl, rfl, rfl, rfl⟩

end PlasmaStream
